import Mathlib

/-!
Verification of the `pipe2` drain loop (`src/main.rs`).

The program spawns a child process, captures its stdout/stderr through two
pipes, and runs a polling loop: each iteration performs one non-blocking read
on the stdout pipe (forward + flush + accumulate on data), one on the stderr
pipe, then polls `child.try_wait()`, and sleeps 10 ms if the child is still
running.  The loop breaks with `Ok(Some(exit_code))` on observed termination
or `Err(e)` on an unrecoverable I/O or wait error.

Bytes are modelled as `Nat`, OS errors as `Nat` identifiers, exit codes as
`Int`.  The outcomes of the OS calls (`read`, `try_wait`, `PeekNamedPipe`,
`ReadFile`) are oracle inputs to the step functions; a second, pipe-level
model (`sysStep`/`sysRun`) supplies those oracles from an explicit pipe
content queue to reason about end-to-end byte completeness.
-/

namespace Pipe2

/-- Capacity of the scratch read buffer: `let mut scratchpad = vec![0u8; 1024]`
(main.rs line 85).  Every single `read` call transfers at most this many bytes. -/
def scratchpadLen : Nat := 1024

/-- Outcome of one non-blocking `read(&mut scratchpad[..])` call on a pipe:
`ok bytes` is `Ok(n)` with the `n = bytes.length` bytes placed in the scratch
buffer, `wouldBlock` is `Err(e)` with `e.kind() == ErrorKind::WouldBlock`, and
`fatal e` is any other `Err(e)`. -/
inductive ReadResult where
  | ok (bytes : List Nat) : ReadResult
  | wouldBlock : ReadResult
  | fatal (e : Nat) : ReadResult
  deriving DecidableEq, Repr

/-- Outcome of one `child.try_wait()` call (main.rs lines 155-159):
still running, exited with a code, or a wait error. -/
inductive WaitResult where
  | running : WaitResult
  | exited (code : Int) : WaitResult
  | fatal (e : Nat) : WaitResult
  deriving DecidableEq, Repr

/-- The mutable state of `main` that the drain loop touches: the two growable
accumulators `stdout_buf` / `stderr_buf` (main.rs lines 83-84) and the
parent-side sinks: `parentOut`/`parentErr` record the chunks passed to
`io::stdout().write_all` / `io::stderr().write_all`, and `flushesOut`/
`flushesErr` count the `flush()` calls on each. -/
structure LoopState where
  stdout_buf : List Nat
  stderr_buf : List Nat
  parentOut : List (List Nat)
  parentErr : List (List Nat)
  flushesOut : Nat
  flushesErr : Nat
  deriving DecidableEq, Repr

/-- The state of `main` right after spawning: empty accumulators, nothing
forwarded yet. -/
def startState : LoopState := ⟨[], [], [], [], 0, 0⟩

/-- Observable events of one loop iteration, in the order they occur:
read attempts on each pipe, `write_all` and `flush` on the parent streams,
the `try_wait` poll, and the 10 ms `thread::sleep`. -/
inductive Ev where
  | readOut (r : ReadResult) : Ev
  | writeOut (bs : List Nat) : Ev
  | flushOut : Ev
  | readErr (r : ReadResult) : Ev
  | writeErr (bs : List Nat) : Ev
  | flushErr : Ev
  | wait (r : WaitResult) : Ev
  | sleep : Ev
  deriving DecidableEq, Repr

/-- Embedding of the unix stdout drain block (main.rs lines 103-112):
```
match stdout.read(&mut scratchpad[..]) {
    Ok(0) => {}
    Ok(n) => { io::stdout().write_all(&scratchpad[..n])?;
               io::stdout().flush()?;
               stdout_buf.extend_from_slice(&scratchpad[..n]); }
    Err(ref e) if e.kind() == io::ErrorKind::WouldBlock => {}
    Err(e) => break Err(e),
}
```
`res` is the oracle outcome of the `read` call.  Returns the new state, the
events of the block, and `some r` exactly when the block executes `break r`. -/
def drainStdout (res : ReadResult) (st : LoopState) :
    LoopState × List Ev × Option (Except Nat (Option Int)) :=
  match res with
  | ReadResult.ok [] => (st, [Ev.readOut res], none)
  | ReadResult.ok bs =>
      ({ st with parentOut := st.parentOut ++ [bs]
               , flushesOut := st.flushesOut + 1
               , stdout_buf := st.stdout_buf ++ bs },
       [Ev.readOut res, Ev.writeOut bs, Ev.flushOut], none)
  | ReadResult.wouldBlock => (st, [Ev.readOut res], none)
  | ReadResult.fatal e => (st, [Ev.readOut res], some (Except.error e))

/-- Embedding of the unix stderr drain block (main.rs lines 130-139), the
mirror image of `drainStdout` on the stderr pipe / parent stderr. -/
def drainStderr (res : ReadResult) (st : LoopState) :
    LoopState × List Ev × Option (Except Nat (Option Int)) :=
  match res with
  | ReadResult.ok [] => (st, [Ev.readErr res], none)
  | ReadResult.ok bs =>
      ({ st with parentErr := st.parentErr ++ [bs]
               , flushesErr := st.flushesErr + 1
               , stderr_buf := st.stderr_buf ++ bs },
       [Ev.readErr res, Ev.writeErr bs, Ev.flushErr], none)
  | ReadResult.wouldBlock => (st, [Ev.readErr res], none)
  | ReadResult.fatal e => (st, [Ev.readErr res], some (Except.error e))

/-- Embedding of the `child.try_wait()` match (main.rs lines 155-159):
`Ok(None)` falls through, `Ok(Some(exit_code))` breaks with
`Ok(Some(exit_code))`, `Err(e)` breaks with `Err(e)`. -/
def pollStep (res : WaitResult) : Option (Except Nat (Option Int)) :=
  match res with
  | WaitResult.running => none
  | WaitResult.exited c => some (Except.ok (some c))
  | WaitResult.fatal e => some (Except.error e)

/-- The oracle inputs consumed by one loop iteration: the outcome of the
stdout read, of the stderr read, and of `try_wait`. -/
structure IterIn where
  outRead : ReadResult
  errRead : ReadResult
  wait : WaitResult
  deriving DecidableEq, Repr

/-- One iteration of the drain loop body (main.rs lines 100-161): drain
stdout; if it broke, stop; otherwise drain stderr; if it broke, stop;
otherwise poll `try_wait`; if it broke, stop; otherwise sleep 10 ms and
continue.  Returns the new state, the iteration's event trace, and `some r`
when the iteration executes `break r`. -/
def iterStep (inp : IterIn) (st : LoopState) :
    LoopState × List Ev × Option (Except Nat (Option Int)) :=
  match drainStdout inp.outRead st with
  | (st1, evs1, some r) => (st1, evs1, some r)
  | (st1, evs1, none) =>
    match drainStderr inp.errRead st1 with
    | (st2, evs2, some r) => (st2, evs1 ++ evs2, some r)
    | (st2, evs2, none) =>
      match pollStep inp.wait with
      | some r => (st2, evs1 ++ evs2 ++ [Ev.wait inp.wait], some r)
      | none => (st2, evs1 ++ evs2 ++ [Ev.wait inp.wait, Ev.sleep], none)

/-- The drain loop (main.rs lines 100-162) run over a finite list of
per-iteration oracle inputs.  Returns the final state, the concatenated event
trace, and `some r` if some iteration executed `break r`; `none` means the
oracle list was exhausted with the loop still running. -/
def runLoop : List IterIn → LoopState → LoopState × List Ev × Option (Except Nat (Option Int))
  | [], st => (st, [], none)
  | i :: rest, st =>
    match iterStep i st with
    | (st1, evs, some r) => (st1, evs, some r)
    | (st1, evs, none) =>
      let res := runLoop rest st1
      (res.1, evs ++ res.2.1, res.2.2)

/-- What `main` does with the loop's break value (main.rs lines 162-172):
`Err(e)` is propagated out of `main` by `?`; `Ok(None)` would take the
`else` branch printing "Failed execution" and calling `exit(1)`;
`Ok(Some(exit))` reaches the final report of the exit code and the two
accumulator lengths.  `stillRunning` is the model artifact for an
exhausted oracle list. -/
inductive MainOutcome where
  | report (code : Int) (outLen errLen : Nat) : MainOutcome
  | fatalError (e : Nat) : MainOutcome
  | failedExecution : MainOutcome
  | stillRunning : MainOutcome
  deriving DecidableEq, Repr

/-- Dispatch of the loop result in `main` (main.rs lines 162-172). -/
def mainAfterLoop (st : LoopState) (r : Option (Except Nat (Option Int))) : MainOutcome :=
  match r with
  | none => MainOutcome.stillRunning
  | some (Except.error e) => MainOutcome.fatalError e
  | some (Except.ok none) => MainOutcome.failedExecution
  | some (Except.ok (some c)) =>
      MainOutcome.report c st.stdout_buf.length st.stderr_buf.length

/-! ### Windows peek-based primitives (main.rs lines 10-61, 115-126, 142-153) -/

/-- Embedding of `windows_pipe_utils::can_read` (main.rs lines 20-42).
`peek` is the oracle outcome of `PeekNamedPipe`: `some n` when the call
succeeds and stores `n` into `bytes_avail`, `none` when it fails, in which
case `bytes_avail` keeps its initial value `0`.  (On success the source also
clears a leftover `ERROR_BROKEN_PIPE` last-error code, which does not affect
the returned value.)  The source returns `Ok(bytes_avail > 0)` on every path. -/
def can_read (peek : Option Nat) : Except Nat Bool :=
  let bytes_avail : Nat :=
    match peek with
    | some n => n
    | none => 0
  Except.ok (decide (bytes_avail > 0))

/-- Embedding of `windows_pipe_utils::read_pipe` (main.rs lines 44-60): the
oracle gives the `ReadFile` outcome directly — `Err(last_os_error)` when the
call reports failure, otherwise `Ok` with the bytes read. -/
def read_pipe (r : Except Nat (List Nat)) : Except Nat (List Nat) := r

/-- Embedding of the windows stdout drain block (main.rs lines 115-126):
```
if can_read(&stdout)? {
    let n = read_pipe(&mut stdout, &mut scratchpad[..])?;
    if n != 0 { write_all; flush; extend_from_slice }
}
```
`peek` feeds `can_read`, `rd` is the `ReadFile` oracle for `read_pipe`.
`Except.error e` models the `?` propagating an error out of `main`. -/
def drainStdoutWin (peek : Option Nat) (rd : Except Nat (List Nat)) (st : LoopState) :
    Except Nat LoopState :=
  match can_read peek with
  | Except.error e => Except.error e
  | Except.ok false => Except.ok st
  | Except.ok true =>
    match read_pipe rd with
    | Except.error e => Except.error e
    | Except.ok bs =>
      if bs.isEmpty then Except.ok st
      else Except.ok { st with parentOut := st.parentOut ++ [bs]
                             , flushesOut := st.flushesOut + 1
                             , stdout_buf := st.stdout_buf ++ bs }

/-- Embedding of the windows stderr drain block (main.rs lines 142-153),
the mirror image of `drainStdoutWin` on the stderr side. -/
def drainStderrWin (peek : Option Nat) (rd : Except Nat (List Nat)) (st : LoopState) :
    Except Nat LoopState :=
  match can_read peek with
  | Except.error e => Except.error e
  | Except.ok false => Except.ok st
  | Except.ok true =>
    match read_pipe rd with
    | Except.error e => Except.error e
    | Except.ok bs =>
      if bs.isEmpty then Except.ok st
      else Except.ok { st with parentErr := st.parentErr ++ [bs]
                             , flushesErr := st.flushesErr + 1
                             , stderr_buf := st.stderr_buf ++ bs }

/-! ### Pipe-level system model

To reason about end-to-end completeness the read oracles are generated from
an explicit model of the two OS pipes: each pipe is the queue of bytes
written by the child and not yet read by the loop.  A non-blocking read
takes at most `scratchpadLen` bytes from the front; an empty pipe yields
`Ok(0)` (EOF) once the writer has exited and `WouldBlock` while it is alive —
the loop treats both identically. -/

/-- One non-blocking read against a pipe holding `pending` unread bytes:
returns the read outcome and the bytes left in the pipe. -/
def osRead (pending : List Nat) (writerGone : Bool) : ReadResult × List Nat :=
  if pending.isEmpty then
    ((if writerGone then ReadResult.ok [] else ReadResult.wouldBlock), pending)
  else
    (ReadResult.ok (pending.take scratchpadLen), pending.drop scratchpadLen)

/-- What the child does before a given loop iteration: bytes appended to the
stdout pipe, bytes appended to the stderr pipe, and possibly exiting with a
code. -/
structure ChildStep where
  outWrites : List Nat
  errWrites : List Nat
  exitNow : Option Int
  deriving DecidableEq, Repr

/-- Full system state: the two pipes' unread content, whether (and how) the
child has exited, and the loop's own state. -/
structure SysState where
  outPipe : List Nat
  errPipe : List Nat
  exited : Option Int
  loop : LoopState
  deriving DecidableEq, Repr

/-- Initial system state right after spawn: empty pipes, child alive. -/
def startSys : SysState := ⟨[], [], none, startState⟩

/-- One system step: the child acts (writes reach the pipes; an exit becomes
observable), then one loop iteration runs with the oracle outcomes this
state dictates — non-blocking reads from each pipe, and a `try_wait` that
reports the exit code once the child has exited. -/
def sysStep (c : ChildStep) (s : SysState) : SysState × Option (Except Nat (Option Int)) :=
  let outPipe := s.outPipe ++ c.outWrites
  let errPipe := s.errPipe ++ c.errWrites
  let exited : Option Int :=
    match s.exited with
    | some k => some k
    | none => c.exitNow
  let ro := osRead outPipe exited.isSome
  let re := osRead errPipe exited.isSome
  let w : WaitResult :=
    match exited with
    | some k => WaitResult.exited k
    | none => WaitResult.running
  let res := iterStep ⟨ro.1, re.1, w⟩ s.loop
  (⟨ro.2, re.2, exited, res.1⟩, res.2.2)

/-- The drain loop over the pipe-level model, driven by a finite schedule of
child behaviours; stops early when an iteration breaks. -/
def sysRun : List ChildStep → SysState → SysState × Option (Except Nat (Option Int))
  | [], s => (s, none)
  | c :: rest, s =>
    match sysStep c s with
    | (s1, some r) => (s1, some r)
    | (s1, none) => sysRun rest s1

/-- Concatenation of everything a schedule writes to the child's stdout. -/
def outFlat : List ChildStep → List Nat
  | [] => []
  | c :: rest => c.outWrites ++ outFlat rest

/-- Concatenation of everything a schedule writes to the child's stderr. -/
def errFlat : List ChildStep → List Nat
  | [] => []
  | c :: rest => c.errWrites ++ errFlat rest

/-- The bytes a read outcome delivers into the scratch buffer. -/
def bytesOf : ReadResult → List Nat
  | ReadResult.ok bs => bs
  | ReadResult.wouldBlock => []
  | ReadResult.fatal _ => []

end Pipe2

namespace Pipe2

/-! ### Basic lemmas about the drain blocks -/

theorem drainStdout_stdout_buf (r : ReadResult) (st : LoopState) :
    (drainStdout r st).1.stdout_buf = st.stdout_buf ++ bytesOf r := by
  cases r with
  | ok bs => cases bs <;> simp [drainStdout, bytesOf]
  | wouldBlock => simp [drainStdout, bytesOf]
  | fatal e => simp [drainStdout, bytesOf]

theorem drainStdout_stderr_buf (r : ReadResult) (st : LoopState) :
    (drainStdout r st).1.stderr_buf = st.stderr_buf := by
  cases r with
  | ok bs => cases bs <;> simp [drainStdout]
  | wouldBlock => simp [drainStdout]
  | fatal e => simp [drainStdout]

theorem drainStderr_stderr_buf (r : ReadResult) (st : LoopState) :
    (drainStderr r st).1.stderr_buf = st.stderr_buf ++ bytesOf r := by
  cases r with
  | ok bs => cases bs <;> simp [drainStderr, bytesOf]
  | wouldBlock => simp [drainStderr, bytesOf]
  | fatal e => simp [drainStderr, bytesOf]

theorem drainStderr_stdout_buf (r : ReadResult) (st : LoopState) :
    (drainStderr r st).1.stdout_buf = st.stdout_buf := by
  cases r with
  | ok bs => cases bs <;> simp [drainStderr]
  | wouldBlock => simp [drainStderr]
  | fatal e => simp [drainStderr]

theorem drainStdout_brk (r : ReadResult) (st : LoopState) :
    (drainStdout r st).2.2 = none ↔ ∀ e, r ≠ ReadResult.fatal e := by
  cases r with
  | ok bs => cases bs <;> simp [drainStdout]
  | wouldBlock => simp [drainStdout]
  | fatal e => simp [drainStdout]

theorem drainStderr_brk (r : ReadResult) (st : LoopState) :
    (drainStderr r st).2.2 = none ↔ ∀ e, r ≠ ReadResult.fatal e := by
  cases r with
  | ok bs => cases bs <;> simp [drainStderr]
  | wouldBlock => simp [drainStderr]
  | fatal e => simp [drainStderr]

theorem iterStep_stdout_buf (inp : IterIn) (st : LoopState) :
    (iterStep inp st).1.stdout_buf = st.stdout_buf ++ bytesOf inp.outRead := by
  obtain ⟨ro, re, w⟩ := inp
  cases ro with
  | ok bs =>
    cases bs with
    | nil =>
      cases re with
      | ok cs =>
        cases cs <;> cases w <;>
          simp [iterStep, drainStdout, drainStderr, pollStep, bytesOf]
      | wouldBlock => cases w <;> simp [iterStep, drainStdout, drainStderr, pollStep, bytesOf]
      | fatal e => simp [iterStep, drainStdout, drainStderr, pollStep, bytesOf]
    | cons b bs =>
      cases re with
      | ok cs =>
        cases cs <;> cases w <;>
          simp [iterStep, drainStdout, drainStderr, pollStep, bytesOf]
      | wouldBlock => cases w <;> simp [iterStep, drainStdout, drainStderr, pollStep, bytesOf]
      | fatal e => simp [iterStep, drainStdout, drainStderr, pollStep, bytesOf]
  | wouldBlock =>
    cases re with
    | ok cs =>
      cases cs <;> cases w <;>
        simp [iterStep, drainStdout, drainStderr, pollStep, bytesOf]
    | wouldBlock => cases w <;> simp [iterStep, drainStdout, drainStderr, pollStep, bytesOf]
    | fatal e => simp [iterStep, drainStdout, drainStderr, pollStep, bytesOf]
  | fatal e => simp [iterStep, drainStdout, drainStderr, pollStep, bytesOf]

end Pipe2

namespace Pipe2

theorem iterStep_fst (inp : IterIn) (st : LoopState) :
    (iterStep inp st).1 =
      match inp.outRead with
      | ReadResult.fatal _ => st
      | _ =>
        match inp.errRead with
        | ReadResult.fatal _ => (drainStdout inp.outRead st).1
        | _ => (drainStderr inp.errRead (drainStdout inp.outRead st).1).1 := by
  rcases inp with ⟨ro, re, w⟩
  rcases ro with (_ | ⟨b, bs⟩) | _ | e <;>
    rcases re with (_ | ⟨c, cs⟩) | _ | f <;>
    rcases w with _ | code | g <;>
    simp [iterStep, drainStdout, drainStderr, pollStep]

theorem iterStep_stderr_buf (inp : IterIn) (st : LoopState)
    (h : ∀ e, inp.outRead ≠ ReadResult.fatal e) :
    (iterStep inp st).1.stderr_buf = st.stderr_buf ++ bytesOf inp.errRead := by
  rw [iterStep_fst]
  rcases hro : inp.outRead with (_ | ⟨b, bs⟩) | _ | e <;>
    rcases hre : inp.errRead with (_ | ⟨c, cs⟩) | _ | f <;>
    simp [drainStderr_stderr_buf, drainStdout_stderr_buf, bytesOf]
  all_goals exact absurd hro (h e)

theorem iterStep_stderr_buf_ex (inp : IterIn) (st : LoopState) :
    ∃ t, (iterStep inp st).1.stderr_buf = st.stderr_buf ++ t := by
  rw [iterStep_fst]
  rcases inp with ⟨ro, re, w⟩
  rcases ro with (_ | ⟨b, bs⟩) | _ | e <;>
    rcases re with (_ | ⟨c, cs⟩) | _ | f <;>
    simp [drainStderr_stderr_buf, drainStdout_stderr_buf, bytesOf]

end Pipe2

namespace Pipe2

/-! ### Lemmas about the pipe-level model -/

theorem osRead_spec (p : List Nat) (g : Bool) :
    bytesOf (osRead p g).1 ++ (osRead p g).2 = p := by
  by_cases h : p.isEmpty
  · cases g <;> simp_all [osRead, bytesOf, List.isEmpty_iff]
  · simp [osRead, h, bytesOf, List.take_append_drop]

theorem osRead_not_fatal (p : List Nat) (g : Bool) (e : Nat) :
    (osRead p g).1 ≠ ReadResult.fatal e := by
  by_cases h : p.isEmpty <;> cases g <;> simp [osRead, h]

theorem osRead_short (p : List Nat) (g : Bool) :
    (bytesOf (osRead p g).1).length ≤ scratchpadLen := by
  by_cases h : p.isEmpty <;> cases g <;>
    simp [osRead, h, bytesOf, scratchpadLen]

theorem sysStep_out (c : ChildStep) (s : SysState) :
    (sysStep c s).1.loop.stdout_buf ++ (sysStep c s).1.outPipe
      = s.loop.stdout_buf ++ (s.outPipe ++ c.outWrites) := by
  simp only [sysStep, iterStep_stdout_buf]
  rw [List.append_assoc, osRead_spec]

theorem sysStep_err (c : ChildStep) (s : SysState) :
    (sysStep c s).1.loop.stderr_buf ++ (sysStep c s).1.errPipe
      = s.loop.stderr_buf ++ (s.errPipe ++ c.errWrites) := by
  simp only [sysStep]
  rw [iterStep_stderr_buf _ _ (fun e => osRead_not_fatal _ _ e)]
  rw [List.append_assoc, osRead_spec]

theorem sysRun_consumed (sched : List ChildStep) (s : SysState) :
    ∃ pre suf, sched = pre ++ suf ∧
      (sysRun sched s).1.loop.stdout_buf ++ (sysRun sched s).1.outPipe
        = s.loop.stdout_buf ++ s.outPipe ++ outFlat pre ∧
      (sysRun sched s).1.loop.stderr_buf ++ (sysRun sched s).1.errPipe
        = s.loop.stderr_buf ++ s.errPipe ++ errFlat pre := by
  induction sched generalizing s with
  | nil => exact ⟨[], [], rfl, by simp [sysRun, outFlat], by simp [sysRun, errFlat]⟩
  | cons c rest ih =>
    have hout := sysStep_out c s
    have herr := sysStep_err c s
    cases hstep : sysStep c s with
    | mk s1 r =>
      rw [hstep] at hout herr
      cases r with
      | some v =>
        refine ⟨[c], rest, rfl, ?_, ?_⟩ <;>
          simp [sysRun, hstep, outFlat, errFlat, hout, herr, List.append_assoc]
      | none =>
        obtain ⟨pre, suf, hps, h1, h2⟩ := ih s1
        refine ⟨c :: pre, suf, by simp [hps], ?_, ?_⟩
        · rw [show sysRun (c :: rest) s = sysRun rest s1 by simp [sysRun, hstep]]
          rw [h1, outFlat]
          rw [show s1.loop.stdout_buf ++ s1.outPipe
                = s.loop.stdout_buf ++ (s.outPipe ++ c.outWrites) from hout]
          simp [List.append_assoc]
        · rw [show sysRun (c :: rest) s = sysRun rest s1 by simp [sysRun, hstep]]
          rw [h2, errFlat]
          rw [show s1.loop.stderr_buf ++ s1.errPipe
                = s.loop.stderr_buf ++ (s.errPipe ++ c.errWrites) from herr]
          simp [List.append_assoc]

theorem outFlat_append (a b : List ChildStep) :
    outFlat (a ++ b) = outFlat a ++ outFlat b := by
  induction a with
  | nil => simp [outFlat]
  | cons c rest ih => simp [outFlat, ih]

theorem errFlat_append (a b : List ChildStep) :
    errFlat (a ++ b) = errFlat a ++ errFlat b := by
  induction a with
  | nil => simp [errFlat]
  | cons c rest ih => simp [errFlat, ih]

end Pipe2

deriving instance DecidableEq for Except

namespace Pipe2

/-! ### Claim theorems -/

/-- C4: whenever a drain's non-blocking read yields `n > 0` bytes, exactly
those bytes are passed to one `write_all` on the matching parent stream, one
`flush` follows immediately (per chunk), and the same bytes are appended to
that stream's accumulator — on the unix stdout and stderr drains and on the
windows (peek-based) stdout and stderr drains alike. -/
theorem c4_drain_data_path (st : LoopState) (bs : List Nat) (h : bs ≠ []) :
    drainStdout (ReadResult.ok bs) st =
      ({ st with parentOut := st.parentOut ++ [bs]
               , flushesOut := st.flushesOut + 1
               , stdout_buf := st.stdout_buf ++ bs },
       [Ev.readOut (ReadResult.ok bs), Ev.writeOut bs, Ev.flushOut], none) ∧
    drainStderr (ReadResult.ok bs) st =
      ({ st with parentErr := st.parentErr ++ [bs]
               , flushesErr := st.flushesErr + 1
               , stderr_buf := st.stderr_buf ++ bs },
       [Ev.readErr (ReadResult.ok bs), Ev.writeErr bs, Ev.flushErr], none) ∧
    (∀ n : Nat, drainStdoutWin (some (n + 1)) (Except.ok bs) st =
      Except.ok { st with parentOut := st.parentOut ++ [bs]
                        , flushesOut := st.flushesOut + 1
                        , stdout_buf := st.stdout_buf ++ bs }) ∧
    (∀ n : Nat, drainStderrWin (some (n + 1)) (Except.ok bs) st =
      Except.ok { st with parentErr := st.parentErr ++ [bs]
                        , flushesErr := st.flushesErr + 1
                        , stderr_buf := st.stderr_buf ++ bs }) := by
  obtain ⟨b, t, rfl⟩ : ∃ b t, bs = b :: t := by
    cases bs with
    | nil => exact absurd rfl h
    | cons b t => exact ⟨b, t, rfl⟩
  refine ⟨rfl, rfl, fun n => ?_, fun n => ?_⟩ <;>
    simp [drainStdoutWin, drainStderrWin, can_read, read_pipe]

theorem c4_drain_data_path_witness :
    (drainStdout (ReadResult.ok [1, 2]) startState).1.stdout_buf = [1, 2] := by
  rw [(c4_drain_data_path startState [1, 2] (by decide)).1]
  simp [startState]

/-- C5: a poll-and-read that finds no pending data — a successful read of 0
bytes or a would-block error — leaves the state (accumulators and parent
sinks) unchanged, breaks nothing, and arbitrarily many such iterations leave
the loop running with the state untouched. -/
theorem c5_nodata_no_effect (st : LoopState) :
    drainStdout (ReadResult.ok []) st = (st, [Ev.readOut (ReadResult.ok [])], none) ∧
    drainStdout ReadResult.wouldBlock st = (st, [Ev.readOut ReadResult.wouldBlock], none) ∧
    drainStderr (ReadResult.ok []) st = (st, [Ev.readErr (ReadResult.ok [])], none) ∧
    drainStderr ReadResult.wouldBlock st = (st, [Ev.readErr ReadResult.wouldBlock], none) ∧
    ∀ k : Nat,
      (runLoop (List.replicate k
          ⟨ReadResult.wouldBlock, ReadResult.wouldBlock, WaitResult.running⟩) st).1 = st ∧
      (runLoop (List.replicate k
          ⟨ReadResult.wouldBlock, ReadResult.wouldBlock, WaitResult.running⟩) st).2.2 = none := by
  refine ⟨rfl, rfl, rfl, rfl, fun k => ?_⟩
  induction k with
  | zero => exact ⟨rfl, rfl⟩
  | succ k ih =>
    refine ⟨?_, ?_⟩ <;>
      simp [List.replicate_succ, runLoop, iterStep, drainStdout, drainStderr, pollStep,
        ih.1, ih.2]

/-- C9: the windows `can_read` is total — when `PeekNamedPipe` fails the
available-byte count keeps its initial value 0 and the function returns
`Ok(false)`; it never returns an error for any peek outcome. -/
theorem c9_can_read_total (peek : Option Nat) :
    can_read none = Except.ok false ∧
    (∃ b, can_read peek = Except.ok b) ∧
    ∀ e, can_read peek ≠ Except.error e := by
  refine ⟨rfl, ⟨_, rfl⟩, fun e => ?_⟩
  simp [can_read]

theorem c9_can_read_total_witness : can_read none = Except.ok false :=
  (c9_can_read_total none).1

theorem iterStep_ne_ok_none (inp : IterIn) (st : LoopState) :
    (iterStep inp st).2.2 ≠ some (Except.ok none) := by
  rcases inp with ⟨ro, re, w⟩
  rcases ro with (_ | ⟨b, bs⟩) | _ | e <;>
    rcases re with (_ | ⟨c, cs⟩) | _ | f <;>
    rcases w with _ | code | g <;>
    simp [iterStep, drainStdout, drainStderr, pollStep]

theorem runLoop_ne_ok_none (inputs : List IterIn) (st : LoopState) :
    (runLoop inputs st).2.2 ≠ some (Except.ok none) := by
  induction inputs generalizing st with
  | nil => simp [runLoop]
  | cons i rest ih =>
    have hne := iterStep_ne_ok_none i st
    rcases h : iterStep i st with ⟨st1, evs, r⟩
    rw [h] at hne
    cases r with
    | some v => simpa [runLoop, h] using hne
    | none => simpa [runLoop, h] using ih st1

/-- C10: the loop only ever breaks with `Err(e)` (propagated by `?`) or
`Ok(Some(exit_code))`, never `Ok(None)`, so the `else` branch of
`let Some(exit) = ... else` — printing "Failed execution" and exiting with
code 1 — is unreachable. -/
theorem c10_failed_execution_unreachable (inputs : List IterIn) (st : LoopState) :
    (runLoop inputs st).2.2 ≠ some (Except.ok none) ∧
    mainAfterLoop (runLoop inputs st).1 (runLoop inputs st).2.2
      ≠ MainOutcome.failedExecution := by
  refine ⟨runLoop_ne_ok_none inputs st, ?_⟩
  cases h : (runLoop inputs st).2.2 with
  | none => simp [mainAfterLoop]
  | some v =>
    cases v with
    | error e => simp [mainAfterLoop]
    | ok o =>
      cases o with
      | none => exact absurd h (runLoop_ne_ok_none inputs st)
      | some c => simp [mainAfterLoop]

theorem c10_failed_execution_unreachable_witness :
    (runLoop [] startState).2.2 ≠ some (Except.ok none) :=
  (c10_failed_execution_unreachable [] startState).1

end Pipe2

namespace Pipe2

theorem runLoop_stdout_buf_ex (inputs : List IterIn) (st : LoopState) :
    ∃ t, (runLoop inputs st).1.stdout_buf = st.stdout_buf ++ t := by
  induction inputs generalizing st with
  | nil => exact ⟨[], by simp [runLoop]⟩
  | cons i rest ih =>
    have h1 := iterStep_stdout_buf i st
    rcases h : iterStep i st with ⟨st1, evs, r⟩
    rw [h] at h1
    simp only at h1
    cases r with
    | some v => exact ⟨bytesOf i.outRead, by simp [runLoop, h, h1]⟩
    | none =>
      obtain ⟨t, ht⟩ := ih st1
      exact ⟨bytesOf i.outRead ++ t,
        by simp [runLoop, h, ht, h1, List.append_assoc]⟩

theorem runLoop_stderr_buf_ex (inputs : List IterIn) (st : LoopState) :
    ∃ t, (runLoop inputs st).1.stderr_buf = st.stderr_buf ++ t := by
  induction inputs generalizing st with
  | nil => exact ⟨[], by simp [runLoop]⟩
  | cons i rest ih =>
    obtain ⟨u, h1⟩ := iterStep_stderr_buf_ex i st
    rcases h : iterStep i st with ⟨st1, evs, r⟩
    rw [h] at h1
    simp only at h1
    cases r with
    | some v => exact ⟨u, by simp [runLoop, h, h1]⟩
    | none =>
      obtain ⟨t, ht⟩ := ih st1
      exact ⟨u ++ t, by simp [runLoop, h, ht, h1, List.append_assoc]⟩

/-- C6: the two accumulators are append-only — across any single loop
iteration and across any run of the loop, the previous contents of
`stdout_buf` and `stderr_buf` are a prefix of the new contents (growth is
monotone, bytes are never rewound or reordered). -/
theorem c6_accumulators_append_only (inp : IterIn) (st : LoopState) (inputs : List IterIn) :
    (∃ t, (iterStep inp st).1.stdout_buf = st.stdout_buf ++ t) ∧
    (∃ t, (iterStep inp st).1.stderr_buf = st.stderr_buf ++ t) ∧
    (∃ t, (runLoop inputs st).1.stdout_buf = st.stdout_buf ++ t) ∧
    (∃ t, (runLoop inputs st).1.stderr_buf = st.stderr_buf ++ t) :=
  ⟨⟨bytesOf inp.outRead, iterStep_stdout_buf inp st⟩, iterStep_stderr_buf_ex inp st,
   runLoop_stdout_buf_ex inputs st, runLoop_stderr_buf_ex inputs st⟩

/-- C3: an unrecoverable read failure terminates the loop within the same
iteration.  A fatal stdout read breaks immediately: the state is untouched,
the iteration's only event is that read — no stderr drain, no exit poll, no
sleep — and the remaining iterations never run.  A fatal stderr read (after a
non-fatal stdout drain) likewise ends the run at once with only the stdout
drain's effects applied. -/
theorem c3_fatal_read_stops_loop (i : IterIn) (rest : List IterIn) (st : LoopState) (e : Nat) :
    (i.outRead = ReadResult.fatal e →
      runLoop (i :: rest) st
        = (st, [Ev.readOut (ReadResult.fatal e)], some (Except.error e))) ∧
    ((∀ x, i.outRead ≠ ReadResult.fatal x) → i.errRead = ReadResult.fatal e →
      runLoop (i :: rest) st
        = ((drainStdout i.outRead st).1,
           (drainStdout i.outRead st).2.1 ++ [Ev.readErr (ReadResult.fatal e)],
           some (Except.error e))) := by
  constructor
  · intro h
    simp [runLoop, iterStep, h, drainStdout]
  · intro hno hf
    rcases hro : i.outRead with (_ | ⟨b, bs⟩) | _ | x
    · simp [runLoop, iterStep, hro, hf, drainStdout, drainStderr]
    · simp [runLoop, iterStep, hro, hf, drainStdout, drainStderr]
    · simp [runLoop, iterStep, hro, hf, drainStdout, drainStderr]
    · exact absurd hro (hno x)

theorem c3_fatal_read_stops_loop_witness :
    runLoop [⟨ReadResult.fatal 5, ReadResult.wouldBlock, WaitResult.running⟩] startState
      = (startState, [Ev.readOut (ReadResult.fatal 5)], some (Except.error 5)) :=
  (c3_fatal_read_stops_loop
    ⟨ReadResult.fatal 5, ReadResult.wouldBlock, WaitResult.running⟩ [] startState 5).1 rfl

/-- C7: the 10 ms sleep happens in an iteration exactly when the iteration
breaks nothing — both drains succeeded and `try_wait` said still running —
and it is the iteration's last event, right after the `try_wait` poll; an
iteration that ends the loop never sleeps. -/
theorem c7_sleep_placement (inp : IterIn) (st : LoopState) :
    (Ev.sleep ∈ (iterStep inp st).2.1 ↔ (iterStep inp st).2.2 = none) ∧
    ((iterStep inp st).2.2 = none →
      (iterStep inp st).2.1.getLast? = some Ev.sleep ∧
      (iterStep inp st).2.1.dropLast.getLast? = some (Ev.wait inp.wait)) ∧
    ((iterStep inp st).2.2 = none ↔
      (∀ e, inp.outRead ≠ ReadResult.fatal e) ∧
      (∀ e, inp.errRead ≠ ReadResult.fatal e) ∧
      inp.wait = WaitResult.running) := by
  rcases inp with ⟨ro, re, w⟩
  rcases ro with (_ | ⟨b, bs⟩) | _ | e <;>
    rcases re with (_ | ⟨c, cs⟩) | _ | f <;>
    rcases w with _ | code | g <;>
    simp [iterStep, drainStdout, drainStderr, pollStep, List.getLast?]

theorem c7_sleep_placement_witness :
    (iterStep ⟨ReadResult.wouldBlock, ReadResult.wouldBlock, WaitResult.running⟩
        startState).2.1.getLast? = some Ev.sleep :=
  ((c7_sleep_placement
      ⟨ReadResult.wouldBlock, ReadResult.wouldBlock, WaitResult.running⟩ startState).2.1
    rfl).1

end Pipe2

namespace Pipe2

/-- Phase of an event inside one iteration: stdout drain (0), stderr drain
(1), exit poll (2), sleep (3). -/
def evKind : Ev → Nat
  | Ev.readOut _ => 0
  | Ev.writeOut _ => 0
  | Ev.flushOut => 0
  | Ev.readErr _ => 1
  | Ev.writeErr _ => 1
  | Ev.flushErr => 1
  | Ev.wait _ => 2
  | Ev.sleep => 3

/-- C2: within every iteration the events occur in the fixed phase order
stdout drain, stderr drain, exit poll, sleep; and in an iteration that
detects termination (breaks with `Ok(Some(code))`) both pipes were drained —
both read attempts are in the trace — with the detecting poll as the very
last event, after the drains. -/
theorem c2_iteration_order (inp : IterIn) (st : LoopState) :
    List.Pairwise (fun a b => evKind a ≤ evKind b) (iterStep inp st).2.1 ∧
    (∀ c : Int, (iterStep inp st).2.2 = some (Except.ok (some c)) →
      Ev.readOut inp.outRead ∈ (iterStep inp st).2.1 ∧
      Ev.readErr inp.errRead ∈ (iterStep inp st).2.1 ∧
      (iterStep inp st).2.1.getLast? = some (Ev.wait inp.wait)) := by
  rcases inp with ⟨ro, re, w⟩
  rcases ro with (_ | ⟨b, bs⟩) | _ | e <;>
    rcases re with (_ | ⟨c, cs⟩) | _ | f <;>
    rcases w with _ | code | g <;>
    simp [iterStep, drainStdout, drainStderr, pollStep, evKind, List.getLast?,
      List.pairwise_cons]

theorem c2_iteration_order_witness :
    Ev.readOut (ReadResult.ok [7])
        ∈ (iterStep ⟨ReadResult.ok [7], ReadResult.ok [], WaitResult.exited 3⟩
            startState).2.1 :=
  ((c2_iteration_order
      ⟨ReadResult.ok [7], ReadResult.ok [], WaitResult.exited 3⟩ startState).2 3 rfl).1

/-- Recognizer for stdout read-attempt events. -/
def isReadOutEv : Ev → Bool
  | Ev.readOut _ => true
  | _ => false

/-- Recognizer for stderr read-attempt events. -/
def isReadErrEv : Ev → Bool
  | Ev.readErr _ => true
  | _ => false

theorem iterStep_countP_out (inp : IterIn) (st : LoopState) :
    (iterStep inp st).2.1.countP isReadOutEv = 1 := by
  rcases inp with ⟨ro, re, w⟩
  rcases ro with (_ | ⟨b, bs⟩) | _ | e <;>
    rcases re with (_ | ⟨c, cs⟩) | _ | f <;>
    rcases w with _ | code | g <;>
    simp [iterStep, drainStdout, drainStderr, pollStep, isReadOutEv, List.countP_cons]

theorem iterStep_countP_err_le (inp : IterIn) (st : LoopState) :
    (iterStep inp st).2.1.countP isReadErrEv ≤ 1 := by
  rcases inp with ⟨ro, re, w⟩
  rcases ro with (_ | ⟨b, bs⟩) | _ | e <;>
    rcases re with (_ | ⟨c, cs⟩) | _ | f <;>
    rcases w with _ | code | g <;>
    simp [iterStep, drainStdout, drainStderr, pollStep, isReadErrEv, List.countP_cons]

theorem iterStep_countP_err_eq (inp : IterIn) (st : LoopState)
    (h : ∀ e, inp.outRead ≠ ReadResult.fatal e) :
    (iterStep inp st).2.1.countP isReadErrEv = 1 := by
  rcases hro : inp.outRead with (_ | ⟨b, bs⟩) | _ | e
  · rcases inp with ⟨ro, re, w⟩
    simp only at hro
    subst hro
    rcases re with (_ | ⟨c, cs⟩) | _ | f <;>
      rcases w with _ | code | g <;>
      simp [iterStep, drainStdout, drainStderr, pollStep, isReadErrEv, List.countP_cons]
  · rcases inp with ⟨ro, re, w⟩
    simp only at hro
    subst hro
    rcases re with (_ | ⟨c, cs⟩) | _ | f <;>
      rcases w with _ | code | g <;>
      simp [iterStep, drainStdout, drainStderr, pollStep, isReadErrEv, List.countP_cons]
  · rcases inp with ⟨ro, re, w⟩
    simp only at hro
    subst hro
    rcases re with (_ | ⟨c, cs⟩) | _ | f <;>
      rcases w with _ | code | g <;>
      simp [iterStep, drainStdout, drainStderr, pollStep, isReadErrEv, List.countP_cons]
  · exact absurd hro (h e)

theorem iterStep_stderr_len_le (inp : IterIn) (st : LoopState) :
    (iterStep inp st).1.stderr_buf.length
      ≤ st.stderr_buf.length + (bytesOf inp.errRead).length := by
  rw [iterStep_fst]
  rcases inp with ⟨ro, re, w⟩
  rcases ro with (_ | ⟨b, bs⟩) | _ | e <;>
    rcases re with (_ | ⟨c, cs⟩) | _ | f <;>
    simp [drainStderr_stderr_buf, drainStdout_stderr_buf, bytesOf]

/-- C8 (amended): every iteration makes exactly one stdout read attempt and
at most one stderr read attempt — exactly one unless the stdout read failed
fatally and ended the loop first — and since one read transfers at most the
1024-byte scratch capacity, each accumulator grows by at most 1024 bytes per
iteration. -/
theorem c8_read_cap (inp : IterIn) (st : LoopState) :
    (iterStep inp st).2.1.countP isReadOutEv = 1 ∧
    (iterStep inp st).2.1.countP isReadErrEv ≤ 1 ∧
    ((∀ e, inp.outRead ≠ ReadResult.fatal e) →
      (iterStep inp st).2.1.countP isReadErrEv = 1) ∧
    ((bytesOf inp.outRead).length ≤ scratchpadLen →
      (iterStep inp st).1.stdout_buf.length ≤ st.stdout_buf.length + scratchpadLen) ∧
    ((bytesOf inp.errRead).length ≤ scratchpadLen →
      (iterStep inp st).1.stderr_buf.length ≤ st.stderr_buf.length + scratchpadLen) := by
  refine ⟨iterStep_countP_out inp st, iterStep_countP_err_le inp st,
    iterStep_countP_err_eq inp st, fun h => ?_, fun h => ?_⟩
  · rw [iterStep_stdout_buf]
    simp only [List.length_append]
    omega
  · have := iterStep_stderr_len_le inp st
    omega

theorem c8_read_cap_witness :
    (iterStep ⟨ReadResult.ok [1], ReadResult.wouldBlock, WaitResult.running⟩
        startState).2.1.countP isReadErrEv = 1 :=
  (c8_read_cap ⟨ReadResult.ok [1], ReadResult.wouldBlock, WaitResult.running⟩
      startState).2.2.1 (fun _ h => nomatch h)

/-- C8 counterexample: an iteration whose stdout read fails fatally performs
no stderr read attempt at all, so "each loop iteration performs exactly one
read attempt per stream" fails for the stderr stream in that iteration. -/
theorem c8_counterexample :
    (iterStep ⟨ReadResult.fatal 5, ReadResult.ok [1], WaitResult.running⟩
        startState).2.1.countP isReadErrEv = 0 := by
  decide

end Pipe2

namespace Pipe2

/-- C1 (amended): over the pipe-level model, for every schedule of child
writes and exit, the loop consumes some prefix of the schedule and at loop
end each accumulator concatenated with the bytes still unread in its pipe
equals exactly the concatenation of that stream's writes delivered so far; in
particular each accumulator is a prefix of the full per-stream write
concatenation — bytes are captured in order with no loss inside the captured
part, no duplication and no within-stream reordering — but a tail still
pending in the pipe when the loop breaks is lost from the accumulator. -/
theorem c1_accumulator_is_write_prefix (sched : List ChildStep) :
    ∃ pre suf, sched = pre ++ suf ∧
      (sysRun sched startSys).1.loop.stdout_buf ++ (sysRun sched startSys).1.outPipe
        = outFlat pre ∧
      (sysRun sched startSys).1.loop.stderr_buf ++ (sysRun sched startSys).1.errPipe
        = errFlat pre ∧
      (∃ t, (sysRun sched startSys).1.loop.stdout_buf ++ t = outFlat sched) ∧
      (∃ t, (sysRun sched startSys).1.loop.stderr_buf ++ t = errFlat sched) := by
  obtain ⟨pre, suf, hps, h1, h2⟩ := sysRun_consumed sched startSys
  have h1' : (sysRun sched startSys).1.loop.stdout_buf ++ (sysRun sched startSys).1.outPipe
      = outFlat pre := by simpa [startSys, startState] using h1
  have h2' : (sysRun sched startSys).1.loop.stderr_buf ++ (sysRun sched startSys).1.errPipe
      = errFlat pre := by simpa [startSys, startState] using h2
  refine ⟨pre, suf, hps, h1', h2', ?_, ?_⟩
  · refine ⟨(sysRun sched startSys).1.outPipe ++ outFlat suf, ?_⟩
    rw [← List.append_assoc, h1', hps, outFlat_append]
  · refine ⟨(sysRun sched startSys).1.errPipe ++ errFlat suf, ?_⟩
    rw [← List.append_assoc, h2', hps, errFlat_append]

set_option maxRecDepth 10000

/-- C1 counterexample to the claim as stated: the child writes 1025 bytes to
stdout and exits before the loop's first iteration.  That iteration reads at
most the 1024-byte scratch capacity, then observes the exit and breaks, so
at loop end the stdout accumulator (1024 bytes) is NOT the concatenation of
the bytes the child wrote (1025 bytes): the last byte is lost. -/
theorem c1_counterexample :
    (sysRun [⟨List.replicate 1025 65, [], some 0⟩] startSys).2
        = some (Except.ok (some 0)) ∧
    (sysRun [⟨List.replicate 1025 65, [], some 0⟩] startSys).1.loop.stdout_buf
        ≠ outFlat [⟨List.replicate 1025 65, [], some 0⟩] := by
  decide

end Pipe2
